import Mathlib

/-!
Verification development for the auto_test_tool remote orchestration engine.

The Python modules `file_transfer.py`, `remote_executor.py` and
`test_runner.py` are shallowly embedded below.  External effects (SFTP, SSH
channels, the local process table) are modelled as explicit environment
arguments; each embedded operation returns its Python return value together
with the updated state and, where the claims need it, a trace of the external
operations it performed, in order.
-/

namespace AutoTest

/-! ## Definitions: the shallow embedding of the engine -/

/-- Embedding of `os.path.basename`: the portion of the path after the last
slash (the whole path when it has no slash). -/
def basenameStr (p : String) : String :=
  ((p.toList.reverse.takeWhile (fun ch => ch ≠ '/')).reverse).asString

/-- Embedding of `os.path.join` for two components (posixpath.join). -/
def pjoin (a b : String) : String :=
  if b.startsWith "/" then b
  else if a = "" ∨ a.endsWith "/" then a ++ b
  else a ++ "/" ++ b

/-- Right-strip of slashes, as `head.rstrip('/')` in posixpath.dirname. -/
def rstripSlash (l : List Char) : List Char :=
  (l.reverse.dropWhile (fun ch => ch = '/')).reverse

/-- Embedding of `os.path.dirname` (posixpath) over character lists:
`head = p[: p.rfind('/') + 1]`, then right-strip slashes unless `head` is
empty or consists only of slashes. -/
def dirnameOf (p : List Char) : List Char :=
  let head := (p.reverse.dropWhile (fun ch => ch ≠ '/')).reverse
  if head ≠ [] ∧ ¬ (head.all (fun ch => ch = '/') = true) then rstripSlash head
  else head

/-- One entry of `file_configs` in `batch_upload_files` (a Python dict with
keys `local_path`, `container_path`, `permissions`). -/
structure FileConfig where
  local_path : String
  container_path : String
  permissions : String
deriving DecidableEq, Repr

/-- External operations attempted by the pipeline, in order. -/
inductive TransferEvent
  | uploadStage (localPath stagingPath : String)
  | copyStage (stagingPath containerPath : String)
  | chmodStage (containerPath permissions : String)
deriving DecidableEq, Repr

/-- Outcome of each external stage operation: `upload_file_to_staging`,
`copy_to_container` and `set_file_permissions` each return a bool and catch
their own exceptions, so the environment is three boolean oracles. -/
structure TransferEnv where
  uploadOk : String → String → Bool
  copyOk : String → String → Bool
  chmodOk : String → String → Bool

/-- Staging path computed in `batch_upload_files`:
`os.path.join(staging_base_path, os.path.basename(local_path))`. -/
def stagingPath (base localPath : String) : String :=
  pjoin base (basenameStr localPath)

/-- Embedding of `batch_upload_files`: iterate over the configs in order; for
each, upload to staging, copy to the container, set permissions; return
`False` as soon as a stage returns `False`; return `True` after the loop.
The second component records every stage that was attempted, in order. -/
def batch_upload_files (env : TransferEnv) (base : String) :
    List FileConfig → Bool × List TransferEvent
  | [] => (true, [])
  | c :: rest =>
    let sp := stagingPath base c.local_path
    if env.uploadOk c.local_path sp then
      if env.copyOk sp c.container_path then
        if env.chmodOk c.container_path c.permissions then
          let r := batch_upload_files env base rest
          (r.1, .uploadStage c.local_path sp :: .copyStage sp c.container_path ::
                .chmodStage c.container_path c.permissions :: r.2)
        else
          (false, [.uploadStage c.local_path sp, .copyStage sp c.container_path,
                   .chmodStage c.container_path c.permissions])
      else
        (false, [.uploadStage c.local_path sp, .copyStage sp c.container_path])
    else
      (false, [.uploadStage c.local_path sp])

/-- All three stages of one config succeed in `env`. -/
def allStagesOk (env : TransferEnv) (base : String) (c : FileConfig) : Bool :=
  env.uploadOk c.local_path (stagingPath base c.local_path) &&
  env.copyOk (stagingPath base c.local_path) c.container_path &&
  env.chmodOk c.container_path c.permissions

/-- The three attempted stages of one fully processed config, in order. -/
def fullStageTrace (base : String) (c : FileConfig) : List TransferEvent :=
  [.uploadStage c.local_path (stagingPath base c.local_path),
   .copyStage (stagingPath base c.local_path) c.container_path,
   .chmodStage c.container_path c.permissions]

/-- Concrete environment for the C1 witness: uploading the local path `"b"`
fails, everything else succeeds. -/
def wEnvC1 : TransferEnv where
  uploadOk := fun l _ => l != "b"
  copyOk := fun _ _ => true
  chmodOk := fun _ _ => true

def cfgA : FileConfig := ⟨"a", "ca", "755"⟩

def cfgB : FileConfig := ⟨"b", "cb", "644"⟩

def cfgC : FileConfig := ⟨"c", "cc", "600"⟩

/-- Substring test over character lists (Python `needle in hay`). -/
def listContains (needle : List Char) : List Char → Bool
  | [] => needle.isEmpty
  | a :: rest => needle.isPrefixOf (a :: rest) || listContains needle rest

/-- Python `needle in hay` on strings. -/
def strContains (hay needle : String) : Bool :=
  listContains needle.toList hay.toList

/-- Mutable state of a `RemoteExecutor`: whether `ssh_client` is set, the
`is_root` flag and the stored `root_password`. -/
structure ExecutorState where
  connected : Bool
  is_root : Bool
  root_password : Option String
deriving DecidableEq, Repr

/-- One call to `paramiko.SSHClient.exec_command` as issued by
`execute_command`: the command string, the timeout, and whether a
pseudo-terminal was requested (`get_pty=True`). -/
structure ExecRequest where
  command : String
  timeout : Nat
  get_pty : Bool
deriving DecidableEq, Repr

/-- Behaviour of the remote side for one exec request: the command completes
with an exit status and output streams, or the channel timeout elapses and
`socket.timeout` is raised while collecting the result. -/
inductive ExecOutcome
  | completed (exitStatus : Nat) (stdoutText stderrText : String)
  | timedOut (msg : String)
deriving DecidableEq, Repr

/-- Embedding of `execute_command`: with no client it returns
`(False, "", "SSH client not connected")` without issuing a request;
otherwise it issues exactly one request whose `get_pty` equals `is_root`,
returns `(True, out, err)` on exit status 0, `(False, out, err)` on a
non-zero exit status, and — the timeout exception being caught by the
generic handler — `(False, "", str(e))` on timeout.  The second component is
the request issued, if any. -/
def execute_command (st : ExecutorState) (command : String) (timeout : Nat)
    (behave : ExecRequest → ExecOutcome) :
    (Bool × String × String) × Option ExecRequest :=
  if st.connected = false then ((false, "", "SSH client not connected"), none)
  else
    let req : ExecRequest := ⟨command, timeout, st.is_root⟩
    match behave req with
    | .completed e out err =>
      if e = 0 then ((true, out, err), some req) else ((false, out, err), some req)
    | .timedOut msg => ((false, "", msg), some req)

/-- Environment of one `switch_to_root` call: whether `invoke_shell` itself
raises, whether a later step of the exchange (send/recv/decode) raises after
the channel is open, and the buffered output read after the `whoami` probe. -/
structure ShellEnv where
  invokeFails : Bool
  exchangeRaises : Bool
  probeOutput : String
deriving DecidableEq, Repr

/-- Outcome of one `switch_to_root` call: the returned boolean, the executor
state after the call, and whether the interactive channel was opened and
closed. -/
structure SwitchResult where
  retval : Bool
  state : ExecutorState
  channelOpened : Bool
  channelClosed : Bool
deriving DecidableEq, Repr

/-- Embedding of `switch_to_root`: open an interactive shell, drive the
escalation exchange, read the probe output, and judge success by
`"root" in output`.  On success `is_root`/`root_password` are set and the
channel is closed; on judged failure the channel is closed and the state is
untouched; an exception is caught by the handler, which returns `False`
without touching the state — and without closing the channel. -/
def switch_to_root (st : ExecutorState) (rootCmd rootPw : String)
    (env : ShellEnv) : SwitchResult :=
  if env.invokeFails then ⟨false, st, false, false⟩
  else if env.exchangeRaises then ⟨false, st, true, false⟩
  else if strContains env.probeOutput "root" then
    ⟨true, { st with is_root := true, root_password := some rootPw }, true, true⟩
  else ⟨false, st, true, true⟩

/-- Mutable state of a `TestRunner` relevant to `stop_test`: whether
`self.process` is set and the `is_running` flag. -/
structure RunnerState where
  hasProcess : Bool
  is_running : Bool
deriving DecidableEq, Repr

/-- Embedding of `stop_test`: when a process object exists and `is_running`
is set, terminate (escalating to kill on a wait timeout — both paths reach
the same state update), clear `is_running` and return `True`; otherwise log a
warning and return `False` leaving the state untouched. -/
def stop_test (st : RunnerState) : Bool × RunnerState :=
  if st.hasProcess && st.is_running then (true, { st with is_running := false })
  else (false, st)

/-- What the filesystem presents for a script path, as probed by
`validate_script`: existence, regular-file bit, read permission, whether the
content decodes as UTF-8 text, and (when it decodes) the stripped first
line. -/
structure ScriptFile where
  pathExists : Bool
  isRegularFile : Bool
  readable : Bool
  decodes : Bool
  firstLine : String
deriving DecidableEq, Repr

/-- Python `s.startswith(p)` over the underlying character lists. -/
def strStartsWith (s p : String) : Bool :=
  p.toList.isPrefixOf s.toList

/-- Embedding of `validate_script`: reject an empty path, a nonexistent
path, a non-regular file and an unreadable file; then open the file — a
`UnicodeDecodeError` is treated as a valid binary executable; otherwise the
result is `True` whether or not the first line starts with `#!` (only the
message differs).  The function only inspects `fs`; it returns nothing but
the `(bool, message)` pair and touches no other state. -/
def validate_script (fs : String → ScriptFile) (path : String) :
    Bool × String :=
  if path = "" then (false, "Script path is empty")
  else if (fs path).pathExists = false then
    (false, "Script file does not exist: " ++ path)
  else if (fs path).isRegularFile = false then
    (false, "Path is not a file: " ++ path)
  else if (fs path).readable = false then
    (false, "Script file is not readable: " ++ path)
  else if (fs path).decodes = false then
    (true, "Script validation passed (binary executable)")
  else if strStartsWith (fs path).firstLine "#!" then
    (true, "Script validation passed")
  else
    (true, "Script validation passed (no shebang found, but file is readable)")

/-- Filesystem for the C8 witness: a single readable shebang script. -/
def wFsC8 : String → ScriptFile := fun p =>
  if p = "/s.sh" then ⟨true, true, true, true, "#!/bin/sh"⟩
  else ⟨false, false, false, false, ""⟩

/-- Embedding of the `_upload_file_chunked` loop: repeatedly read up to
`chunkSize` bytes from the local file and write each nonempty chunk to the
remote file; the result is the list of chunks written, in order.  Python's
`file.read(n)` on a file whose remaining content is `content` yields
`content[:n]`. -/
def upload_file_chunked (chunkSize : Nat) (content : List Nat) :
    List (List Nat) :=
  if content.take chunkSize = [] then []
  else content.take chunkSize :: upload_file_chunked chunkSize (content.drop chunkSize)
termination_by content.length
decreasing_by
  rename_i h
  rw [List.take_eq_nil_iff] at h
  push_neg at h
  have h3 : 0 < content.length := List.length_pos.mpr h.2
  simp only [List.length_drop]
  omega

/-- Lengths of the chunks produced for a file of `n` bytes. -/
def chunkLens (chunkSize n : Nat) : List Nat :=
  if n = 0 then []
  else if chunkSize = 0 then []
  else min chunkSize n :: chunkLens chunkSize (n - chunkSize)
termination_by n
decreasing_by
  rename_i h1 h2
  omega

/-- Embedding of `_ensure_remote_directory` over an abstract remote
filesystem `fs` (the list of existing directories): `sftp.stat(d)` succeeds
iff `d ∈ fs`, `sftp.mkdir(d)` succeeds iff `dirname(d) ∈ fs` and then adds
`d`.  If the first `mkdir` fails, the code recurses on `os.path.dirname(d)`
when that parent differs from `d` (re-raising otherwise) and then retries
`mkdir(d)` once; a retry failure would propagate as an exception.  The
result is `none` on fuel exhaustion, otherwise `(completed-normally, final
filesystem, mkdir attempts in order)`. -/
def ensure_remote_directory (fuel : Nat) (fs : List (List Char))
    (d : List Char) : Option (Bool × List (List Char) × List (List Char)) :=
  match fuel with
  | 0 => none
  | fuel + 1 =>
    if d ∈ fs then some (true, fs, [])
    else if dirnameOf d ∈ fs then some (true, d :: fs, [d])
    else if dirnameOf d = d then some (false, fs, [d])
    else
      match ensure_remote_directory fuel fs (dirnameOf d) with
      | none => none
      | some (false, fs2, tr) => some (false, fs2, d :: tr)
      | some (true, fs2, tr) =>
        if dirnameOf d ∈ fs2 then some (true, d :: fs2, d :: (tr ++ [d]))
        else some (false, fs2, d :: (tr ++ [d]))

/-! ## Theorems -/

lemma batch_cons_ok (env : TransferEnv) (base : String) (c : FileConfig)
    (rest : List FileConfig) (h : allStagesOk env base c = true) :
    batch_upload_files env base (c :: rest) =
      ((batch_upload_files env base rest).1,
        fullStageTrace base c ++ (batch_upload_files env base rest).2) := by
  simp only [allStagesOk, Bool.and_eq_true] at h
  simp [batch_upload_files, h.1.1, h.1.2, h.2, fullStageTrace]

lemma batch_append_ok (env : TransferEnv) (base : String)
    (pre rest : List FileConfig)
    (hpre : ∀ x ∈ pre, allStagesOk env base x = true) :
    batch_upload_files env base (pre ++ rest) =
      ((batch_upload_files env base rest).1,
        (pre.map (fullStageTrace base)).flatten ++
          (batch_upload_files env base rest).2) := by
  induction pre with
  | nil => simp
  | cons c pre ih =>
    have hc : allStagesOk env base c = true := hpre c (by simp)
    have hrec := ih (fun x hx => hpre x (by simp [hx]))
    rw [List.cons_append, batch_cons_ok env base c (pre ++ rest) hc, hrec]
    simp

lemma batch_fst_true_iff (env : TransferEnv) (base : String)
    (cfgs : List FileConfig) :
    (batch_upload_files env base cfgs).1 = true ↔
      ∀ x ∈ cfgs, allStagesOk env base x = true := by
  induction cfgs with
  | nil => simp [batch_upload_files]
  | cons c rest ih =>
    by_cases hu : env.uploadOk c.local_path (stagingPath base c.local_path) = true
    · by_cases hcp : env.copyOk (stagingPath base c.local_path) c.container_path = true
      · by_cases hch : env.chmodOk c.container_path c.permissions = true
        · rw [batch_cons_ok env base c rest (by simp [allStagesOk, hu, hcp, hch])]
          simp [allStagesOk, hu, hcp, hch, ih]
        · simp [batch_upload_files, hu, hcp, hch, allStagesOk]
      · simp [batch_upload_files, hu, hcp, allStagesOk]
    · simp [batch_upload_files, hu, allStagesOk]

lemma batch_all_ok (env : TransferEnv) (base : String) (cfgs : List FileConfig)
    (h : ∀ x ∈ cfgs, allStagesOk env base x = true) :
    batch_upload_files env base cfgs =
      (true, (cfgs.map (fullStageTrace base)).flatten) := by
  induction cfgs with
  | nil => simp [batch_upload_files]
  | cons c rest ih =>
    rw [batch_cons_ok env base c rest (h c (by simp)),
      ih (fun x hx => h x (by simp [hx]))]
    simp

/-- Claim C1: `batch_upload_files` processes the descriptors in input order,
running for each exactly the three stages upload / container copy / set
permissions in order; it stops at the first failing stage of the first
failing descriptor, attempts nothing afterwards, returns `False` there, and
returns `True` exactly when all three stages succeed for every descriptor. -/
theorem batch_upload_fail_fast
    (env : TransferEnv) (base : String) (pre post : List FileConfig)
    (c : FileConfig)
    (hpre : ∀ x ∈ pre, allStagesOk env base x = true) :
    ((batch_upload_files env base (pre ++ c :: post)).1 = true ↔
      (allStagesOk env base c = true ∧
        ∀ x ∈ post, allStagesOk env base x = true)) ∧
    (env.uploadOk c.local_path (stagingPath base c.local_path) = false →
      batch_upload_files env base (pre ++ c :: post) =
        (false, (pre.map (fullStageTrace base)).flatten ++
          [.uploadStage c.local_path (stagingPath base c.local_path)])) ∧
    (env.uploadOk c.local_path (stagingPath base c.local_path) = true →
      env.copyOk (stagingPath base c.local_path) c.container_path = false →
      batch_upload_files env base (pre ++ c :: post) =
        (false, (pre.map (fullStageTrace base)).flatten ++
          [.uploadStage c.local_path (stagingPath base c.local_path),
           .copyStage (stagingPath base c.local_path) c.container_path])) ∧
    (env.uploadOk c.local_path (stagingPath base c.local_path) = true →
      env.copyOk (stagingPath base c.local_path) c.container_path = true →
      env.chmodOk c.container_path c.permissions = false →
      batch_upload_files env base (pre ++ c :: post) =
        (false, (pre.map (fullStageTrace base)).flatten ++
          fullStageTrace base c)) ∧
    ((∀ x ∈ pre ++ c :: post, allStagesOk env base x = true) →
      batch_upload_files env base (pre ++ c :: post) =
        (true, ((pre ++ c :: post).map (fullStageTrace base)).flatten)) := by
  refine ⟨?_, ?_, ?_, ?_, ?_⟩
  · rw [batch_append_ok env base pre (c :: post) hpre]
    simpa using batch_fst_true_iff env base (c :: post)
  · intro hu
    rw [batch_append_ok env base pre (c :: post) hpre]
    simp [batch_upload_files, hu]
  · intro hu hcp
    rw [batch_append_ok env base pre (c :: post) hpre]
    simp [batch_upload_files, hu, hcp]
  · intro hu hcp hch
    rw [batch_append_ok env base pre (c :: post) hpre]
    simp [batch_upload_files, hu, hcp, hch, fullStageTrace]
  · intro hall
    exact batch_all_ok env base (pre ++ c :: post) hall

/-- Witness for claim C1 at a concrete three-descriptor batch whose middle
descriptor fails its upload stage. -/
theorem batch_upload_fail_fast_witness :
    ((batch_upload_files wEnvC1 "" ([cfgA] ++ cfgB :: [cfgC])).1 = true ↔
      (allStagesOk wEnvC1 "" cfgB = true ∧
        ∀ x ∈ [cfgC], allStagesOk wEnvC1 "" x = true)) ∧
    (wEnvC1.uploadOk cfgB.local_path (stagingPath "" cfgB.local_path) = false →
      batch_upload_files wEnvC1 "" ([cfgA] ++ cfgB :: [cfgC]) =
        (false, ([cfgA].map (fullStageTrace "")).flatten ++
          [.uploadStage cfgB.local_path (stagingPath "" cfgB.local_path)])) ∧
    (wEnvC1.uploadOk cfgB.local_path (stagingPath "" cfgB.local_path) = true →
      wEnvC1.copyOk (stagingPath "" cfgB.local_path) cfgB.container_path = false →
      batch_upload_files wEnvC1 "" ([cfgA] ++ cfgB :: [cfgC]) =
        (false, ([cfgA].map (fullStageTrace "")).flatten ++
          [.uploadStage cfgB.local_path (stagingPath "" cfgB.local_path),
           .copyStage (stagingPath "" cfgB.local_path) cfgB.container_path])) ∧
    (wEnvC1.uploadOk cfgB.local_path (stagingPath "" cfgB.local_path) = true →
      wEnvC1.copyOk (stagingPath "" cfgB.local_path) cfgB.container_path = true →
      wEnvC1.chmodOk cfgB.container_path cfgB.permissions = false →
      batch_upload_files wEnvC1 "" ([cfgA] ++ cfgB :: [cfgC]) =
        (false, ([cfgA].map (fullStageTrace "")).flatten ++
          fullStageTrace "" cfgB)) ∧
    ((∀ x ∈ [cfgA] ++ cfgB :: [cfgC], allStagesOk wEnvC1 "" x = true) →
      batch_upload_files wEnvC1 "" ([cfgA] ++ cfgB :: [cfgC]) =
        (true, (([cfgA] ++ cfgB :: [cfgC]).map (fullStageTrace "")).flatten)) :=
  batch_upload_fail_fast wEnvC1 "" [cfgA] [cfgC] cfgB (by decide)

/-- Claim C10: `batch_upload_files` on an empty list of file configurations
returns `True` and attempts no stage operation. -/
theorem batch_upload_empty (env : TransferEnv) (base : String) :
    batch_upload_files env base [] = (true, []) := rfl

/-- Claim C2: every request issued by `execute_command` has
`get_pty = is_root`, so a pseudo-terminal is requested exactly when the
session is elevated; in particular every execution performed on the state
left by a successful `switch_to_root` requests a pseudo-terminal. -/
theorem execute_command_pty_iff_root
    (st : ExecutorState) (cmd : String) (t : Nat)
    (behave : ExecRequest → ExecOutcome) (hconn : st.connected = true) :
    ((execute_command st cmd t behave).2 = some ⟨cmd, t, st.is_root⟩) ∧
    (∀ (scmd pw : String) (env : ShellEnv),
      (switch_to_root st scmd pw env).retval = true →
      (execute_command (switch_to_root st scmd pw env).state cmd t behave).2 =
        some ⟨cmd, t, true⟩) := by
  constructor
  · simp only [execute_command, hconn]
    cases behave ⟨cmd, t, st.is_root⟩ with
    | completed e out err =>
      by_cases he : e = 0 <;> simp [he]
    | timedOut msg => simp
  · intro scmd pw env hret
    simp only [switch_to_root] at hret ⊢
    by_cases h1 : env.invokeFails = true
    · simp [h1] at hret
    · by_cases h2 : env.exchangeRaises = true
      · simp [h1, h2] at hret
      · by_cases h3 : strContains env.probeOutput "root" = true
        · simp only [h1, h2, h3]
          simp only [Bool.false_eq_true, if_false, if_true]
          simp only [execute_command, hconn]
          cases behave ⟨cmd, t, true⟩ with
          | completed e out err =>
            by_cases he : e = 0 <;> simp [he]
          | timedOut msg => simp
        · simp [h1, h2, h3] at hret

/-- Witness for claim C2 at a concrete connected, elevated-able state. -/
theorem execute_command_pty_iff_root_witness :
    ((execute_command ⟨true, true, some "pw"⟩ "ls" 60
        (fun _ => .completed 0 "out" "")).2 = some ⟨"ls", 60, true⟩) ∧
    (∀ (scmd pw : String) (env : ShellEnv),
      (switch_to_root ⟨true, true, some "pw"⟩ scmd pw env).retval = true →
      (execute_command (switch_to_root ⟨true, true, some "pw"⟩ scmd pw env).state
          "ls" 60 (fun _ => .completed 0 "out" "")).2 =
        some ⟨"ls", 60, true⟩) :=
  execute_command_pty_iff_root ⟨true, true, some "pw"⟩ "ls" 60
    (fun _ => .completed 0 "out" "") rfl

/-- Claim C3: when the escalation exchange completes without raising,
`switch_to_root` returns `True` and sets `is_root` and `root_password`
exactly when the probe output contains `"root"`; for any probe output not
containing the marker it returns `False` and leaves the state unchanged. -/
theorem switch_to_root_marker_iff
    (st : ExecutorState) (cmd pw : String) (env : ShellEnv)
    (hinv : env.invokeFails = false) (hraise : env.exchangeRaises = false) :
    (((switch_to_root st cmd pw env).retval = true ∧
      (switch_to_root st cmd pw env).state =
        { st with is_root := true, root_password := some pw }) ↔
      strContains env.probeOutput "root" = true) ∧
    (strContains env.probeOutput "root" = false →
      (switch_to_root st cmd pw env).retval = false ∧
      (switch_to_root st cmd pw env).state = st) := by
  by_cases h3 : strContains env.probeOutput "root" = true
  · simp [switch_to_root, hinv, hraise, h3]
  · simp [switch_to_root, hinv, hraise, h3]

/-- Witness for claim C3 at a probe output that does not contain `"root"`. -/
theorem switch_to_root_marker_iff_witness :
    (((switch_to_root ⟨true, false, none⟩ "su -" "pw"
          ⟨false, false, "user1\n"⟩).retval = true ∧
      (switch_to_root ⟨true, false, none⟩ "su -" "pw"
          ⟨false, false, "user1\n"⟩).state =
        { connected := true, is_root := true, root_password := some "pw" }) ↔
      strContains "user1\n" "root" = true) ∧
    (strContains "user1\n" "root" = false →
      (switch_to_root ⟨true, false, none⟩ "su -" "pw"
          ⟨false, false, "user1\n"⟩).retval = false ∧
      (switch_to_root ⟨true, false, none⟩ "su -" "pw"
          ⟨false, false, "user1\n"⟩).state = ⟨true, false, none⟩) :=
  switch_to_root_marker_iff ⟨true, false, none⟩ "su -" "pw"
    ⟨false, false, "user1\n"⟩ rfl rfl

/-- Counterexample to claim C4: when a step of the escalation exchange
raises after the interactive channel has been opened, the exception handler
returns `False` without closing the channel — the channel is left open. -/
theorem switch_to_root_unclosed_on_exception :
    (switch_to_root ⟨true, false, none⟩ "su -" "pw"
        ⟨false, true, ""⟩).channelOpened = true ∧
    (switch_to_root ⟨true, false, none⟩ "su -" "pw"
        ⟨false, true, ""⟩).channelClosed = false ∧
    (switch_to_root ⟨true, false, none⟩ "su -" "pw"
        ⟨false, true, ""⟩).retval = false := by
  decide

/-- Claim C4 as amended: `switch_to_root` closes the interactive channel on
the success path and on the judged-failure path; but when an exception is
raised during the exchange after the channel is opened, the handler returns
without closing it. -/
theorem switch_to_root_channel_closure
    (st : ExecutorState) (cmd pw : String) (env : ShellEnv)
    (hinv : env.invokeFails = false) :
    (env.exchangeRaises = false →
      (switch_to_root st cmd pw env).channelOpened = true ∧
      (switch_to_root st cmd pw env).channelClosed = true) ∧
    (env.exchangeRaises = true →
      (switch_to_root st cmd pw env).channelOpened = true ∧
      (switch_to_root st cmd pw env).channelClosed = false) := by
  constructor
  · intro hr
    by_cases h3 : strContains env.probeOutput "root" = true <;>
      simp [switch_to_root, hinv, hr, h3]
  · intro hr
    simp [switch_to_root, hinv, hr]

/-- Witness for the amended claim C4 at a concrete exchange that succeeds. -/
theorem switch_to_root_channel_closure_witness :
    ((false : Bool) = false →
      (switch_to_root ⟨true, false, none⟩ "su -" "pw"
          ⟨false, false, "root\n"⟩).channelOpened = true ∧
      (switch_to_root ⟨true, false, none⟩ "su -" "pw"
          ⟨false, false, "root\n"⟩).channelClosed = true) ∧
    ((false : Bool) = true →
      (switch_to_root ⟨true, false, none⟩ "su -" "pw"
          ⟨false, false, "root\n"⟩).channelOpened = true ∧
      (switch_to_root ⟨true, false, none⟩ "su -" "pw"
          ⟨false, false, "root\n"⟩).channelClosed = false) :=
  switch_to_root_channel_closure ⟨true, false, none⟩ "su -" "pw"
    ⟨false, false, "root\n"⟩ rfl

/-- Counterexample to claim C5: a command that times out and a command that
completes with exit status 1 can hand the caller the very same value
`(False, "", "timed out")` — the timeout failure is not a distinct,
distinguishable error kind. -/
theorem timeout_result_not_distinct :
    execute_command ⟨true, false, none⟩ "sleep 100" 60
        (fun _ => .timedOut "timed out") =
      execute_command ⟨true, false, none⟩ "sleep 100" 60
        (fun _ => .completed 1 "" "timed out") := rfl

/-- Claim C5 as amended: on timeout `execute_command` returns
`(False, "", message)`, of the same `(ok, stdout, stderr)` shape as the
`(False, stdout, stderr)` returned for a non-zero exit status; no distinct
timeout error kind is produced, and the two results can coincide. -/
theorem execute_command_timeout_shape
    (st : ExecutorState) (cmd : String) (t : Nat) (msg : String)
    (behave : ExecRequest → ExecOutcome) (hconn : st.connected = true)
    (hb : behave ⟨cmd, t, st.is_root⟩ = .timedOut msg) :
    (execute_command st cmd t behave).1 = (false, "", msg) ∧
    (∀ outText errText : String,
      (execute_command st cmd t
        (fun _ => .completed 1 outText errText)).1 = (false, outText, errText)) := by
  constructor
  · simp [execute_command, hconn, hb]
  · intro outText errText
    simp [execute_command, hconn]

/-- Witness for the amended claim C5 at a concrete timed-out command. -/
theorem execute_command_timeout_shape_witness :
    (execute_command ⟨true, false, none⟩ "sleep 100" 60
        (fun _ => .timedOut "timed out")).1 = (false, "", "timed out") ∧
    (∀ outText errText : String,
      (execute_command ⟨true, false, none⟩ "sleep 100" 60
        (fun _ => .completed 1 outText errText)).1 = (false, outText, errText)) :=
  execute_command_timeout_shape ⟨true, false, none⟩ "sleep 100" 60 "timed out"
    (fun _ => .timedOut "timed out") rfl rfl

/-- Claim C9: `stop_test` with no active child process — never started, or
already terminated and observed (`is_running` cleared) — returns `False` and
leaves the runner state unchanged; the inactive branch performs no raising
operation. -/
theorem stop_test_no_active_process (st : RunnerState)
    (h : st.hasProcess = false ∨ st.is_running = false) :
    stop_test st = (false, st) := by
  rcases h with h | h <;> simp [stop_test, h]

/-- Witness for claim C9 on a runner that never started a process. -/
theorem stop_test_no_active_process_witness :
    stop_test ⟨false, false⟩ = (false, ⟨false, false⟩) :=
  stop_test_no_active_process ⟨false, false⟩ (Or.inl rfl)

/-- Claim C8: `validate_script` returns `False` for an empty path, a
nonexistent path, a non-regular file and an unreadable file; it returns
`True` for a readable file whose first line starts with `#!` and for a
readable file that fails text decoding (treated as a binary executable); the
embedding is pure — it reads `fs` and produces only the result pair. -/
theorem validate_script_cases (fs : String → ScriptFile) (path : String) :
    (path = "" → (validate_script fs path).1 = false) ∧
    (path ≠ "" → (fs path).pathExists = false →
      (validate_script fs path).1 = false) ∧
    (path ≠ "" → (fs path).pathExists = true →
      (fs path).isRegularFile = false → (validate_script fs path).1 = false) ∧
    (path ≠ "" → (fs path).pathExists = true →
      (fs path).isRegularFile = true → (fs path).readable = false →
      (validate_script fs path).1 = false) ∧
    (path ≠ "" → (fs path).pathExists = true →
      (fs path).isRegularFile = true → (fs path).readable = true →
      (fs path).decodes = true → strStartsWith (fs path).firstLine "#!" = true →
      (validate_script fs path).1 = true) ∧
    (path ≠ "" → (fs path).pathExists = true →
      (fs path).isRegularFile = true → (fs path).readable = true →
      (fs path).decodes = false → (validate_script fs path).1 = true) := by
  refine ⟨?_, ?_, ?_, ?_, ?_, ?_⟩
  · intro h
    simp [validate_script, h]
  · intro h he
    simp [validate_script, h, he]
  · intro h he hf
    simp [validate_script, h, he, hf]
  · intro h he hf hr
    simp [validate_script, h, he, hf, hr]
  · intro h he hf hr hd hs
    simp [validate_script, h, he, hf, hr, hd, hs]
  · intro h he hf hr hd
    simp [validate_script, h, he, hf, hr, hd]

/-- Witness for claim C8 at a readable shebang script path. -/
theorem validate_script_cases_witness :
    ("/s.sh" ≠ "" → (wFsC8 "/s.sh").pathExists = true →
      (wFsC8 "/s.sh").isRegularFile = true → (wFsC8 "/s.sh").readable = true →
      (wFsC8 "/s.sh").decodes = true →
      strStartsWith (wFsC8 "/s.sh").firstLine "#!" = true →
      (validate_script wFsC8 "/s.sh").1 = true) ∧
    (validate_script wFsC8 "/s.sh").1 = true :=
  ⟨(validate_script_cases wFsC8 "/s.sh").2.2.2.2.1,
    (validate_script_cases wFsC8 "/s.sh").2.2.2.2.1 (by decide) rfl rfl rfl rfl
      (by decide)⟩

lemma chunkLens_zero (c : Nat) : chunkLens c 0 = [] := by
  rw [chunkLens]
  simp

lemma upload_file_chunked_flatten (chunkSize : Nat) (content : List Nat)
    (hc : 0 < chunkSize) :
    (upload_file_chunked chunkSize content).flatten = content := by
  induction content using upload_file_chunked.induct chunkSize with
  | case1 content h =>
    rw [List.take_eq_nil_iff] at h
    rcases h with h | h
    · omega
    · simp [upload_file_chunked, h]
  | case2 content h ih =>
    rw [upload_file_chunked, if_neg h]
    simp only [List.flatten_cons, ih]
    exact List.take_append_drop ..

lemma upload_file_chunked_lens (chunkSize : Nat) (content : List Nat)
    (hc : 0 < chunkSize) :
    (upload_file_chunked chunkSize content).map List.length =
      chunkLens chunkSize content.length := by
  induction content using upload_file_chunked.induct chunkSize with
  | case1 content h =>
    rw [List.take_eq_nil_iff] at h
    rcases h with h | h
    · omega
    · simp [upload_file_chunked, chunkLens, h]
  | case2 content h ih =>
    rw [upload_file_chunked, if_neg h]
    rw [List.take_eq_nil_iff] at h
    push_neg at h
    have h3 : 0 < content.length := List.length_pos.mpr h.2
    rw [chunkLens, if_neg (by omega), if_neg (by omega)]
    simp only [List.map_cons, List.length_take, ih, List.length_drop]

lemma chunkLens_mem (c : Nat) (hc : 0 < c) :
    ∀ (n : Nat), ∀ x ∈ chunkLens c n, 0 < x ∧ x ≤ c := by
  intro n
  induction n using Nat.strong_induction_on with
  | _ n ih =>
    intro x hx
    rw [chunkLens] at hx
    by_cases h0 : n = 0
    · simp [h0] at hx
    · rw [if_neg h0, if_neg (by omega)] at hx
      rcases List.mem_cons.mp hx with h | h
      · subst h
        omega
      · exact ih (n - c) (by omega) x h

lemma chunkLens_get (c : Nat) (hc : 0 < c) :
    ∀ (n : Nat) (i : Nat) (hi : i + 1 < (chunkLens c n).length),
      (chunkLens c n).get ⟨i, Nat.lt_of_succ_lt hi⟩ = c := by
  intro n
  induction n using Nat.strong_induction_on with
  | _ n ih =>
    intro i hi
    by_cases h0 : n = 0
    · subst h0
      rw [chunkLens_zero] at hi
      simp at hi
    · have hcne : ¬ c = 0 := by omega
      have hrw : chunkLens c n = min c n :: chunkLens c (n - c) := by
        rw [chunkLens, if_neg h0, if_neg hcne]
      cases i with
      | zero =>
        have hlen : 0 < (chunkLens c (n - c)).length := by
          rw [hrw] at hi
          simpa using hi
        have hnc : n - c ≠ 0 := by
          intro hz
          rw [hz, chunkLens_zero] at hlen
          simp at hlen
        have hget : (chunkLens c n).get ⟨0, Nat.lt_of_succ_lt hi⟩ = min c n := by
          simp [hrw]
        rw [hget]
        omega
      | succ j =>
        have hi2 : j + 1 < (chunkLens c (n - c)).length := by
          rw [hrw] at hi
          simpa using hi
        have hrec := ih (n - c) (by omega) j hi2
        rw [show (chunkLens c n).get ⟨j + 1, Nat.lt_of_succ_lt hi⟩ =
            (chunkLens c (n - c)).get ⟨j, Nat.lt_of_succ_lt hi2⟩ from by
          simp [hrw]]
        exact hrec

lemma chunkLens_at_example :
    chunkLens 1048576 2621440 = [1048576, 1048576, 524288] := by
  rw [chunkLens]
  norm_num
  rw [chunkLens]
  norm_num
  rw [chunkLens]
  norm_num
  rw [chunkLens]
  norm_num

/-- Claim C6: `_upload_file_chunked` writes the file as a sequence of chunks
whose concatenation equals the file content; every chunk is nonempty and at
most `chunkSize` bytes, every non-final chunk is exactly `chunkSize` bytes,
and with the default 1 MiB chunk a 2.5 MiB file yields exactly the three
writes of 1 MiB, 1 MiB and 0.5 MiB. -/
theorem upload_file_chunked_spec (chunkSize : Nat) (content : List Nat)
    (hc : 0 < chunkSize) :
    (upload_file_chunked chunkSize content).flatten = content ∧
    (upload_file_chunked chunkSize content).map List.length =
      chunkLens chunkSize content.length ∧
    (∀ x ∈ (upload_file_chunked chunkSize content).map List.length,
      0 < x ∧ x ≤ chunkSize) ∧
    (∀ (i : Nat)
      (hi : i + 1 < ((upload_file_chunked chunkSize content).map List.length).length),
      ((upload_file_chunked chunkSize content).map List.length).get
        ⟨i, Nat.lt_of_succ_lt hi⟩ = chunkSize) ∧
    (chunkSize = 1048576 → content.length = 2621440 →
      (upload_file_chunked chunkSize content).map List.length =
        [1048576, 1048576, 524288]) := by
  have hlens := upload_file_chunked_lens chunkSize content hc
  refine ⟨upload_file_chunked_flatten chunkSize content hc, hlens, ?_, ?_, ?_⟩
  · rw [hlens]
    exact chunkLens_mem chunkSize hc content.length
  · intro i hi
    have hi2 : i + 1 < (chunkLens chunkSize content.length).length := hlens ▸ hi
    rw [List.get_of_eq hlens ⟨i, Nat.lt_of_succ_lt hi⟩]
    exact chunkLens_get chunkSize hc content.length i hi2
  · intro hcs hlen
    rw [hlens, hcs, hlen]
    exact chunkLens_at_example

/-- Witness for claim C6 at chunk size 3 on a 5-byte file. -/
theorem upload_file_chunked_spec_witness :
    (0 : Nat) < 3 ∧
    (upload_file_chunked 3 [9, 8, 7, 6, 5]).flatten = [9, 8, 7, 6, 5] ∧
    (upload_file_chunked 3 [9, 8, 7, 6, 5]).map List.length = chunkLens 3 5 :=
  ⟨by decide, (upload_file_chunked_spec 3 [9, 8, 7, 6, 5] (by decide)).1,
    (upload_file_chunked_spec 3 [9, 8, 7, 6, 5] (by decide)).2.1⟩

lemma reverse_dropWhile_length_le (q : Char → Bool) (l : List Char) :
    ((l.reverse.dropWhile q).reverse).length ≤ l.length := by
  simpa using (List.dropWhile_suffix q (l := l.reverse)).length_le

lemma reverse_dropWhile_eq_of_length (q : Char → Bool) (l : List Char)
    (h : ((l.reverse.dropWhile q).reverse).length = l.length) :
    (l.reverse.dropWhile q).reverse = l := by
  have h2 : (l.reverse.dropWhile q).length = l.reverse.length := by
    simpa using h
  have h3 := (List.dropWhile_suffix q (l := l.reverse)).eq_of_length h2
  calc (l.reverse.dropWhile q).reverse = l.reverse.reverse := by rw [h3]
    _ = l := l.reverse_reverse

lemma dirnameOf_length_le (p : List Char) : (dirnameOf p).length ≤ p.length := by
  unfold dirnameOf
  set head := (p.reverse.dropWhile (fun ch => ch ≠ '/')).reverse with hh
  have h1 : head.length ≤ p.length := reverse_dropWhile_length_le _ p
  by_cases hcond : head ≠ [] ∧ ¬ (head.all (fun ch => ch = '/') = true)
  · rw [if_pos hcond]
    have h2 : (rstripSlash head).length ≤ head.length :=
      reverse_dropWhile_length_le _ head
    omega
  · rw [if_neg hcond]
    exact h1

lemma dirnameOf_eq_of_length (p : List Char)
    (h : (dirnameOf p).length = p.length) : dirnameOf p = p := by
  unfold dirnameOf at h ⊢
  set head := (p.reverse.dropWhile (fun ch => ch ≠ '/')).reverse with hh
  have h1 : head.length ≤ p.length := reverse_dropWhile_length_le _ p
  by_cases hcond : head ≠ [] ∧ ¬ (head.all (fun ch => ch = '/') = true)
  · rw [if_pos hcond] at h ⊢
    have h2 : (rstripSlash head).length ≤ head.length :=
      reverse_dropWhile_length_le _ head
    have h3 : head.length = p.length := by omega
    have h4 : head = p := reverse_dropWhile_eq_of_length _ p h3
    have h5 : (rstripSlash head).length = head.length := by omega
    have h6 : rstripSlash head = head := reverse_dropWhile_eq_of_length _ head h5
    rw [h6, h4]
  · rw [if_neg hcond] at h ⊢
    exact reverse_dropWhile_eq_of_length _ p h

lemma dirnameOf_lt (p : List Char) (h : dirnameOf p ≠ p) :
    (dirnameOf p).length < p.length := by
  rcases Nat.lt_or_ge (dirnameOf p).length p.length with h1 | h1
  · exact h1
  · exact absurd (dirnameOf_eq_of_length p
      (Nat.le_antisymm (dirnameOf_length_le p) h1)) h

lemma ensure_mono (fuel : Nat) :
    ∀ (fuel2 : Nat) (fs : List (List Char)) (d : List Char),
      fuel ≤ fuel2 → ensure_remote_directory fuel fs d ≠ none →
      ensure_remote_directory fuel2 fs d = ensure_remote_directory fuel fs d := by
  induction fuel with
  | zero =>
    intro fuel2 fs d _ hne
    exact absurd rfl hne
  | succ fuel ih =>
    intro fuel2 fs d hle hne
    obtain ⟨fuel3, rfl⟩ : ∃ k, fuel2 = k + 1 :=
      ⟨fuel2 - 1, by omega⟩
    simp only [ensure_remote_directory] at hne ⊢
    by_cases h1 : d ∈ fs
    · simp [h1]
    · by_cases h2 : dirnameOf d ∈ fs
      · simp [h1, h2]
      · by_cases h3 : dirnameOf d = d
        · simp [h1, h2, h3]
        · simp only [h1, h2, h3, if_neg, Bool.false_eq_true, if_false] at hne ⊢
          have hrec : ensure_remote_directory fuel fs (dirnameOf d) ≠ none := by
            intro hz
            rw [hz] at hne
            exact hne rfl
          rw [ih fuel3 fs (dirnameOf d) (by omega) hrec]

lemma ensure_terminates (n : Nat) :
    ∀ (d : List Char), d.length ≤ n → ∀ (fs : List (List Char)),
      ensure_remote_directory (d.length + 1) fs d ≠ none := by
  induction n with
  | zero =>
    intro d hd fs
    have hdn : d = [] := List.length_eq_zero.mp (by omega)
    subst hdn
    simp only [ensure_remote_directory]
    by_cases h1 : ([] : List Char) ∈ fs
    · simp [h1]
    · by_cases h2 : dirnameOf [] ∈ fs
      · simp [h1, h2]
      · have h3 : dirnameOf [] = [] := by decide
        simp [h1, h2, h3]
  | succ n ih =>
    intro d hd fs
    simp only [ensure_remote_directory]
    by_cases h1 : d ∈ fs
    · simp [h1]
    · by_cases h2 : dirnameOf d ∈ fs
      · simp [h1, h2]
      · by_cases h3 : dirnameOf d = d
        · simp [h1, h2, h3]
        · simp only [h1, h2, h3, Bool.false_eq_true, if_false]
          have hlt : (dirnameOf d).length < d.length := dirnameOf_lt d h3
          have hrec : ensure_remote_directory ((dirnameOf d).length + 1) fs
              (dirnameOf d) ≠ none := ih (dirnameOf d) (by omega) fs
          have heq := ensure_mono ((dirnameOf d).length + 1) d.length fs
            (dirnameOf d) (by omega) hrec
          rw [heq]
          intro hcontra
          rcases hres : ensure_remote_directory ((dirnameOf d).length + 1) fs
              (dirnameOf d) with _ | ⟨b, fs2, tr⟩
          · exact hrec hres
          · rw [hres] at hcontra
            cases b
            · simp at hcontra
            · by_cases h4 : dirnameOf d ∈ fs2 <;> simp [h4] at hcontra

lemma ensure_trace_bound (fuel : Nat) :
    ∀ (fs : List (List Char)) (d : List Char) (b : Bool)
      (fs2 tr : List (List Char)),
      ensure_remote_directory fuel fs d = some (b, fs2, tr) →
      ∀ x ∈ tr, x.length ≤ d.length := by
  induction fuel with
  | zero =>
    intro fs d b fs2 tr h
    simp [ensure_remote_directory] at h
  | succ fuel ih =>
    intro fs d b fs2 tr h
    simp only [ensure_remote_directory] at h
    by_cases h1 : d ∈ fs
    · rw [if_pos h1] at h
      injection h with h
      injection h with _ h
      injection h with _ h
      subst h
      intro x hx
      simp at hx
    · rw [if_neg h1] at h
      by_cases h2 : dirnameOf d ∈ fs
      · rw [if_pos h2] at h
        injection h with h
        injection h with _ h
        injection h with _ h
        subst h
        intro x hx
        simp at hx
        subst hx
        exact Nat.le_refl _
      · rw [if_neg h2] at h
        by_cases h3 : dirnameOf d = d
        · rw [if_pos h3] at h
          injection h with h
          injection h with _ h
          injection h with _ h
          subst h
          intro x hx
          simp at hx
          subst hx
          exact Nat.le_refl _
        · rw [if_neg h3] at h
          rcases hres : ensure_remote_directory fuel fs (dirnameOf d) with
            _ | ⟨b2, fs3, tr3⟩
          · rw [hres] at h
            simp at h
          · rw [hres] at h
            have htr3 : ∀ x ∈ tr3, x.length ≤ (dirnameOf d).length :=
              ih fs (dirnameOf d) b2 fs3 tr3 hres
            have hdle : (dirnameOf d).length ≤ d.length := dirnameOf_length_le d
            cases b2
            · simp only at h
              injection h with h
              injection h with _ h
              injection h with _ h
              subst h
              intro x hx
              rcases List.mem_cons.mp hx with hx | hx
              · subst hx
                exact Nat.le_refl _
              · exact le_trans (htr3 x hx) hdle
            · simp only at h
              by_cases h4 : dirnameOf d ∈ fs3
              · rw [if_pos h4] at h
                injection h with h
                injection h with _ h
                injection h with _ h
                subst h
                intro x hx
                rcases List.mem_cons.mp hx with hx | hx
                · subst hx
                  exact Nat.le_refl _
                · rcases List.mem_append.mp hx with hx | hx
                  · exact le_trans (htr3 x hx) hdle
                  · simp at hx
                    subst hx
                    exact Nat.le_refl _
              · rw [if_neg h4] at h
                injection h with h
                injection h with _ h
                injection h with _ h
                subst h
                intro x hx
                rcases List.mem_cons.mp hx with hx | hx
                · subst hx
                  exact Nat.le_refl _
                · rcases List.mem_append.mp hx with hx | hx
                  · exact le_trans (htr3 x hx) hdle
                  · simp at hx
                    subst hx
                    exact Nat.le_refl _

lemma ensure_retry_once (fs : List (List Char)) (d : List Char)
    (h1 : d ∉ fs) (h2 : dirnameOf d ∉ fs) (h3 : dirnameOf d ≠ d)
    (b : Bool) (fs2 tr : List (List Char))
    (h : ensure_remote_directory (d.length + 1) fs d = some (b, fs2, tr))
    (hb : b = true) : tr.count d = 2 := by
  subst hb
  simp only [ensure_remote_directory, if_neg h1, if_neg h2, if_neg h3] at h
  rcases hres : ensure_remote_directory d.length fs (dirnameOf d) with
    _ | ⟨b2, fs3, tr3⟩
  · rw [hres] at h
    simp at h
  · rw [hres] at h
    have htr3 : ∀ x ∈ tr3, x.length ≤ (dirnameOf d).length :=
      ensure_trace_bound d.length fs (dirnameOf d) b2 fs3 tr3 hres
    have hdlt : (dirnameOf d).length < d.length := dirnameOf_lt d h3
    have hnotmem : d ∉ tr3 := by
      intro hmem
      have hcon := htr3 d hmem
      omega
    cases b2
    · simp at h
    · simp only at h
      by_cases h4 : dirnameOf d ∈ fs3
      · rw [if_pos h4] at h
        injection h with h
        injection h with _ h
        injection h with _ h
        subst h
        rw [List.count_cons_self, List.count_append]
        rw [List.count_eq_zero.mpr hnotmem]
        simp
      · rw [if_neg h4] at h
        simp at h

/-- Claim C7: `_ensure_remote_directory` terminates for every path: fuel
one larger than the path length never runs out, because each recursive step
passes `dirname` of the path, which is strictly shorter whenever it differs
from the path (the recursion stops when they coincide); and when the first
`mkdir` fails, the recursion over missing ancestors completes, and the run
completes normally, the original directory is attempted exactly twice — the
initial attempt plus exactly one retry. -/
theorem ensure_remote_directory_spec (fs : List (List Char)) (d : List Char) :
    (ensure_remote_directory (d.length + 1) fs d ≠ none) ∧
    (∀ p : List Char, dirnameOf p ≠ p → (dirnameOf p).length < p.length) ∧
    (∀ (b : Bool) (fs2 tr : List (List Char)),
      d ∉ fs → dirnameOf d ∉ fs → dirnameOf d ≠ d →
      ensure_remote_directory (d.length + 1) fs d = some (b, fs2, tr) →
      b = true → tr.count d = 2) := by
  refine ⟨ensure_terminates d.length d (Nat.le_refl _) fs, dirnameOf_lt, ?_⟩
  intro b fs2 tr h1 h2 h3 h hb
  exact ensure_retry_once fs d h1 h2 h3 b fs2 tr h hb

/-- Witness for claim C7: creating `/a/b/c` when only `/a` exists attempts
`mkdir` on `/a/b/c`, recurses to create `/a/b`, and retries `/a/b/c` exactly
once. -/
theorem ensure_remote_directory_spec_witness :
    (ensure_remote_directory ("/a/b/c".toList.length + 1) [("/a".toList)]
        "/a/b/c".toList ≠ none) ∧
    (["/a/b/c".toList, "/a/b".toList, "/a/b/c".toList].count
        "/a/b/c".toList = 2) :=
  ⟨(ensure_remote_directory_spec [("/a".toList)] "/a/b/c".toList).1,
    (ensure_remote_directory_spec [("/a".toList)] "/a/b/c".toList).2.2 true
      ["/a/b/c".toList, "/a/b".toList, ("/a".toList)]
      ["/a/b/c".toList, "/a/b".toList, "/a/b/c".toList]
      (by decide) (by decide) (by decide) (by decide) rfl⟩

end AutoTest
